import Mathlib

/-!
Verification model of the real-time chat and call-signaling coordinator of the
ChatzOne backend (backend/routes/calls.js, backend/routes/chat.js,
backend/utils/socketHandler.js, config/redis.js, database/schema.sql).

Modelling conventions:
* JS `Map`s keyed by numeric ids become association lists (`List (Nat × α)`);
  `Map.set` overwrites an existing key in place or appends a new one, mirroring
  JS insertion-order semantics.
* JS `Set`s become duplicate-free `List Nat` built only through the join/leave
  operations below.
* SQL tables become lists of records; an `UPDATE ... WHERE` statement becomes a
  `List.map` that rewrites every row matching the `WHERE` clause, and a
  `SELECT ... rows[0]` becomes `List.find?`.  Each route handler runs inside a
  database transaction (`transaction(async (client) => ...)` in the source), so
  a whole handler is modelled as one atomic state-transition function.
* Timestamps are `Nat` seconds, coin balances are `Int` (the SQL column is a
  plain integer and the source subtracts without a floor check).
* Socket emissions that no claim mentions (e.g. `incoming_call`,
  `call_answered`, online/offline notifications to matches) are elided; the
  emissions the claims quantify over are returned explicitly as event lists.
-/

namespace ChatzModel

/-- Association-list lookup: JS `Map.get`, or SQL select-by-key taking the
first matching row. -/
def alookup {α : Type} (m : List (Nat × α)) (k : Nat) : Option α :=
  (m.find? (fun p => p.1 == k)).map (fun p => p.2)

/-- Association-list store: JS `Map.set` — overwrite the existing key in place
(keys are unique in a JS `Map`), otherwise append in insertion order. -/
def aset {α : Type} (m : List (Nat × α)) (k : Nat) (v : α) : List (Nat × α) :=
  match m with
  | [] => [(k, v)]
  | p :: t => if p.1 == k then (k, v) :: t else p :: aset t k v

/-- Association-list removal: JS `Map.delete`. -/
def adel {α : Type} (m : List (Nat × α)) (k : Nat) : List (Nat × α) :=
  m.filter (fun p => p.1 != k)

/-- Members of a room: the set stored under `rid`, empty when absent. -/
def members (m : List (Nat × List Nat)) (rid : Nat) : List Nat :=
  (alookup m rid).getD []

/-- `if (!rooms.has(rid)) rooms.set(rid, new Set()); rooms.get(rid).add(uid)` —
the room-set insertion pattern of socketHandler.js (Set.add is idempotent). -/
def addMem (m : List (Nat × List Nat)) (rid uid : Nat) : List (Nat × List Nat) :=
  match alookup m rid with
  | none => aset m rid [uid]
  | some ms => if uid ∈ ms then m else aset m rid (ms ++ [uid])

/-- `if (rooms.has(rid)) { rooms.get(rid).delete(uid);
if (rooms.get(rid).size === 0) rooms.delete(rid) }` — the room-set removal
pattern of socketHandler.js. -/
def delMem (m : List (Nat × List Nat)) (rid uid : Nat) : List (Nat × List Nat) :=
  match alookup m rid with
  | none => m
  | some ms =>
      let ms2 := ms.filter (fun x => x != uid)
      if ms2.isEmpty then adel m rid else aset m rid ms2

/-! ## Call-session model — backend/routes/calls.js

The `calls` SQL table (database/schema.sql lines 161-173) and the four call
route handlers.  The 30-second `setTimeout` armed by `POST /initiate` is
modelled by `fireTimeout`, which captures `call.id`, `callerId` and
`recipientId` exactly as the closure in the source does. -/

inductive CallType where
  | voice
  | video
deriving DecidableEq, Repr

inductive CallStatus where
  | ringing
  | connected
  | ended
  | declined
  | missed
  | failed
deriving DecidableEq, Repr

structure Call where
  callId : Nat
  callerId : Nat
  recipientId : Nat
  callType : CallType
  status : CallStatus
  createdAt : Nat
  answeredAt : Option Nat := none
  endedAt : Option Nat := none
  duration : Option Int := none
deriving DecidableEq, Repr

/-- State touched by the call routes: the `calls` table, the `users.coins`
column, the verified-user set and the `blocked_users` table. -/
structure CallsDB where
  calls : List Call
  coins : Nat → Int
  verified : List Nat
  blockedPairs : List (Nat × Nat)
  nextCallId : Nat

/-- `const requiredCoins = callType === 'video' ? 5 : 3` (calls.js line 39). -/
def requiredCoins : CallType → Int
  | .video => 5
  | .voice => 3

/-- `status IN ('ringing', 'connected')`. -/
def isActive (st : CallStatus) : Bool :=
  st == .ringing || st == .connected

/-- `caller_id = $1 OR recipient_id = $1 OR caller_id = $2 OR recipient_id = $2`
(calls.js line 75). -/
def involvesEither (c : Call) (a b : Nat) : Bool :=
  c.callerId == a || c.recipientId == a || c.callerId == b || c.recipientId == b

/-- `(blocker_id = $1 AND blocked_id = $2) OR (blocker_id = $2 AND blocked_id = $1)`
(calls.js line 64). -/
def isBlockedPair (db : CallsDB) (a b : Nat) : Bool :=
  db.blockedPairs.any (fun p => (p.1 == a && p.2 == b) || (p.1 == b && p.2 == a))

inductive InitiateResult where
  | selfCall
  | insufficientCoins (required current : Int)
  | recipientNotFound
  | blocked
  | alreadyInCall
  | ok (call : Call)

/-- The row inserted by `POST /initiate` (calls.js lines 84-88). -/
def newCall (db : CallsDB) (callerId recipientId : Nat) (t : CallType) (now : Nat) : Call :=
  { callId := db.nextCallId, callerId := callerId, recipientId := recipientId,
    callType := t, status := .ringing, createdAt := now }

/-- `POST /initiate` (calls.js lines 9-138): self-call check, coin check
(compare only, no deduction), recipient-verified check, block check,
active-call check, then insert a `ringing` row. -/
def initiateCall (db : CallsDB) (callerId recipientId : Nat) (t : CallType) (now : Nat) :
    InitiateResult × CallsDB :=
  if callerId == recipientId then (.selfCall, db)
  else if db.coins callerId < requiredCoins t then
    (.insufficientCoins (requiredCoins t) (db.coins callerId), db)
  else if !(db.verified.any (fun u => u == recipientId)) then (.recipientNotFound, db)
  else if isBlockedPair db callerId recipientId then (.blocked, db)
  else if db.calls.any (fun c => involvesEither c callerId recipientId && isActive c.status) then
    (.alreadyInCall, db)
  else
    let c := newCall db callerId recipientId t now
    (.ok c, { db with calls := db.calls ++ [c], nextCallId := db.nextCallId + 1 })

/-- Event emitted to a user's personal room (`user_${id}`). -/
inductive CallEvt where
  | callTimeout (target callId : Nat)
deriving DecidableEq, Repr

/-- The 30-second timer body (calls.js lines 116-132):
`UPDATE calls SET status='missed', ended_at=NOW() WHERE id=$1 AND
status='ringing' RETURNING id`, and `call_timeout` to both parties only when a
row was updated.  `callerId`/`recipientId` are the closure captures. -/
def fireTimeout (db : CallsDB) (cid callerId recipientId : Nat) (now : Nat) :
    List CallEvt × CallsDB :=
  let hit := db.calls.any (fun c => c.callId == cid && c.status == .ringing)
  let calls2 := db.calls.map (fun c =>
    if c.callId == cid && c.status == .ringing then
      { c with status := .missed, endedAt := some now }
    else c)
  (if hit then [.callTimeout callerId cid, .callTimeout recipientId cid] else [],
   { db with calls := calls2 })

inductive AnswerResult where
  | notFound
  | ok (call : Call)
deriving DecidableEq, Repr

/-- `POST /:callId/answer` (calls.js lines 141-222): select the row with
`id = $1 AND recipient_id = $2 AND status = 'ringing'` (404 when absent), then
`UPDATE calls SET status='connected', answered_at=NOW() WHERE id=$1` and deduct
`requiredCoins` from the caller — all inside one transaction. -/
def answerCall (db : CallsDB) (cid uid : Nat) (now : Nat) : AnswerResult × CallsDB :=
  match db.calls.find? (fun c => c.callId == cid && c.recipientId == uid &&
      c.status == .ringing) with
  | none => (.notFound, db)
  | some c =>
      let calls2 := db.calls.map (fun k =>
        if k.callId == cid then { k with status := .connected, answeredAt := some now }
        else k)
      let cost := requiredCoins c.callType
      (.ok c, { db with
                calls := calls2,
                coins := fun x => if x == c.callerId then db.coins x - cost else db.coins x })

inductive DeclineResult where
  | notFound
  | ok (callerId : Nat)
deriving DecidableEq, Repr

/-- `POST /:callId/decline` (calls.js lines 225-254): one
`UPDATE ... SET status='declined', ended_at=NOW() WHERE id=$1 AND
recipient_id=$2 AND status='ringing' RETURNING caller_id`, 404 when no row. -/
def declineCall (db : CallsDB) (cid uid : Nat) (now : Nat) : DeclineResult × CallsDB :=
  match db.calls.find? (fun c => c.callId == cid && c.recipientId == uid &&
      c.status == .ringing) with
  | none => (.notFound, db)
  | some c =>
      let calls2 := db.calls.map (fun k =>
        if k.callId == cid && k.recipientId == uid && k.status == .ringing then
          { k with status := .declined, endedAt := some now }
        else k)
      (.ok c.callerId, { db with calls := calls2 })

inductive EndResult where
  | notFound
  | ok (duration : Int)
deriving DecidableEq, Repr

/-- The `WHERE` clause of `POST /:callId/end`:
`id = $1 AND (caller_id = $2 OR recipient_id = $2) AND status IN
('ringing','connected')`. -/
def endGuard (c : Call) (cid uid : Nat) : Bool :=
  c.callId == cid && (c.callerId == uid || c.recipientId == uid) && isActive c.status

/-- `POST /:callId/end` (calls.js lines 257-306): guarded update to `ended`
with `duration = EXTRACT(EPOCH FROM (NOW() - COALESCE(answered_at, created_at)))`;
404 "Call not found or already ended" when no row matches; the reported
duration falls back to 0 unless `answered_at` was set and the stored duration
is non-zero (JS truthiness of `call.duration`). -/
def endCall (db : CallsDB) (cid uid : Nat) (now : Nat) : EndResult × CallsDB :=
  match db.calls.find? (fun c => endGuard c cid uid) with
  | none => (.notFound, db)
  | some c =>
      let storedDur : Int := (now : Int) - ((c.answeredAt.getD c.createdAt : Nat) : Int)
      let calls2 := db.calls.map (fun k =>
        if endGuard k cid uid then
          { k with status := .ended, endedAt := some now,
                   duration := some ((now : Int) - ((k.answeredAt.getD k.createdAt : Nat) : Int)) }
        else k)
      let actual : Int := if c.answeredAt.isSome && storedDur != 0 then storedDur else 0
      (.ok actual, { db with calls := calls2 })

/-- First row of the `calls` table with the given id. -/
def findCall (db : CallsDB) (cid : Nat) : Option Call :=
  db.calls.find? (fun c => c.callId == cid)

/-- Status of the call with the given id. -/
def statusOf (db : CallsDB) (cid : Nat) : Option CallStatus :=
  (findCall db cid).map (fun c => c.status)

/-! ## Connection registry, room membership and messaging —
backend/utils/socketHandler.js and backend/routes/chat.js

`activeConnections` is a `Map` from **userId** to one connection record (so a
second connection of the same user overwrites the first), `conversationRooms`
is a `Map` from conversation id to a `Set` of user ids, and the socket.io room
`conversationId` (joined by `socket.join`, targeted by `io.to`) is tracked in
`sioRooms`.  The Redis presence keys (`online:${userId}`, config/redis.js)
are the `presence` list. -/

/-- One entry of `activeConnections`: `{ socketId, user, lastSeen, rooms }`
(user and lastSeen elided — no claim mentions them). -/
structure ConnInfo where
  socketId : Nat
  rooms : List Nat
deriving DecidableEq, Repr

structure Msg where
  msgId : Nat
  conversationId : Nat
  senderId : Nat
  content : String
  createdAt : Nat
deriving DecidableEq, Repr

/-- State touched by the socket handler and the chat route: the in-process
maps, the Redis presence keys, the `conversations` table (id → array of
member user ids), the `users.coins` column and the `messages` table. -/
structure SockState where
  activeConnections : List (Nat × ConnInfo)
  conversationRooms : List (Nat × List Nat)
  sioRooms : List (Nat × List Nat)
  presence : List Nat
  convs : List (Nat × List Nat)
  coins : Nat → Int
  messages : List Msg
  nextMsgId : Nat

/-- Connection setup (socketHandler.js lines 53-67):
`activeConnections.set(userId, { socketId, ..., rooms: new Set() })` plus
`setUserOnline(userId, socket.id)` (a Redis key write, idempotent). -/
def registerConnection (s : SockState) (uid sid : Nat) : SockState :=
  { s with
    activeConnections := aset s.activeConnections uid ⟨sid, []⟩,
    presence := if uid ∈ s.presence then s.presence else s.presence ++ [uid] }

inductive JoinRes where
  | convNotFound
  | accessDenied
  | ok
  | errorThrown
deriving DecidableEq, Repr

/-- `socket.on('join_conversation')` (socketHandler.js lines 118-167): look up
the conversation, reject non-members, then `socket.join(conversationId)`,
`activeConnections.get(userId).rooms.add(conversationId)` (this line throws
when the user has no registry entry — after the bare `socket.join`), and the
`conversationRooms` set insertion. -/
def joinConversation (s : SockState) (uid cid : Nat) : JoinRes × SockState :=
  match alookup s.convs cid with
  | none => (.convNotFound, s)
  | some ps =>
      if uid ∈ ps then
        let sio := addMem s.sioRooms cid uid
        match alookup s.activeConnections uid with
        | none => (.errorThrown, { s with sioRooms := sio })
        | some ci =>
            let rooms2 := if cid ∈ ci.rooms then ci.rooms else ci.rooms ++ [cid]
            (.ok, { s with
                    sioRooms := sio,
                    activeConnections := aset s.activeConnections uid ⟨ci.socketId, rooms2⟩,
                    conversationRooms := addMem s.conversationRooms cid uid })
      else (.accessDenied, s)

/-- `socket.on('leave_conversation')` (socketHandler.js lines 170-195):
`socket.leave(conversationId)`,
`activeConnections.get(userId)?.rooms.delete(conversationId)` and the
`conversationRooms` removal (entry deleted when the set empties).  No
authorization check and no error on absence. -/
def leaveConversation (s : SockState) (uid cid : Nat) : SockState :=
  let ac := match alookup s.activeConnections uid with
    | none => s.activeConnections
    | some ci => aset s.activeConnections uid ⟨ci.socketId, ci.rooms.filter (fun r => r != cid)⟩
  { s with
    sioRooms := delMem s.sioRooms cid uid,
    activeConnections := ac,
    conversationRooms := delMem s.conversationRooms cid uid }

/-- `socket.on('disconnect')` (socketHandler.js lines 419-463).  socket.io
itself removes the dead socket from every socket.io room; the handler then
runs `activeConnections.delete(userId)` **first**, and only afterwards
iterates `activeConnections.get(userId)?.rooms || []` to clean
`conversationRooms` — reading the entry it has just deleted.  Finally
`setUserOffline(userId)` deletes the Redis presence key. -/
def disconnect (s : SockState) (uid : Nat) : SockState :=
  let sio := s.sioRooms.map (fun p => (p.1, p.2.filter (fun x => x != uid)))
  let ac := adel s.activeConnections uid
  let roomIds := ((alookup ac uid).map (fun ci => ci.rooms)).getD []
  let convRooms := roomIds.foldl (fun m cid => delMem m cid uid) s.conversationRooms
  { s with
    sioRooms := sio,
    activeConnections := ac,
    conversationRooms := convRooms,
    presence := s.presence.filter (fun x => x != uid) }

inductive SendRes where
  | validationFailed
  | convNotFound
  | accessDenied
  | insufficientCoins
  | persistFailed
  | ok (m : Msg)
deriving DecidableEq, Repr

/-- `POST /:conversationId/messages` (chat.js lines 202-316), the transaction
body: validate content (trim sanitizer plus length 1..1000), check the sender
is a conversation member, check and deduct 1 coin, `INSERT INTO messages`
(the store write — `storeUp = false` models the persistence collaborator
being unavailable, which throws and rolls the transaction back), then
`req.io?.to(conversationId).emit('new_message', ...)` whose recipients are
every socket currently in the socket.io room `conversationId`.  The optional
translation step is elided (its errors are swallowed and it affects no
claim), and so is the `.trim()` whitespace sanitizer (no claim concerns
whitespace; the length bounds 1..1000 are kept).
Returns (result, fan-out recipients, state). -/
def sendMessage (s : SockState) (uid cid : Nat) (content : String) (now : Nat)
    (storeUp : Bool) : SendRes × List Nat × SockState :=
  if content.length < 1 ∨ content.length > 1000 then (.validationFailed, [], s)
  else match alookup s.convs cid with
  | none => (.convNotFound, [], s)
  | some ps =>
      if uid ∈ ps then
        if s.coins uid < 1 then (.insufficientCoins, [], s)
        else if storeUp = false then (.persistFailed, [], s)
        else
          let m : Msg := ⟨s.nextMsgId, cid, uid, content, now⟩
          (.ok m, members s.sioRooms cid,
           { s with
             coins := fun x => if x == uid then s.coins x - 1 else s.coins x,
             messages := s.messages ++ [m],
             nextMsgId := s.nextMsgId + 1 })
      else (.accessDenied, [], s)

/-! ## Operation sequences for the join/leave net-effect property -/

/-- One client room operation on a fixed (user, room) pair. -/
inductive RoomOp where
  | join
  | leave
deriving DecidableEq, Repr

/-- Run a sequence of `join_conversation`/`leave_conversation` events by the
same user on the same room. -/
def applyRoomOps (s : SockState) (uid cid : Nat) : List RoomOp → SockState
  | [] => s
  | .join :: rest => applyRoomOps (joinConversation s uid cid).2 uid cid rest
  | .leave :: rest => applyRoomOps (leaveConversation s uid cid) uid cid rest

/-- The net effect of a join/leave sequence on one user's membership: the
last operation wins, an empty sequence keeps the initial membership. -/
def netMember (init : Bool) : List RoomOp → Bool
  | [] => init
  | .join :: rest => netMember true rest
  | .leave :: rest => netMember false rest

/-! ## Concrete states used to instantiate the theorems -/

/-- A concrete ringing video call: user 10 calling user 20, call id 1. -/
def exCall1 : Call :=
  { callId := 1, callerId := 10, recipientId := 20, callType := .video,
    status := .ringing, createdAt := 0 }

/-- A concrete call database holding just `exCall1`; everyone has 9 coins. -/
def exCallsDB : CallsDB :=
  { calls := [exCall1], coins := fun _ => 9, verified := [10, 20],
    blockedPairs := [], nextCallId := 2 }

/-- A call database whose only call (id 1, caller 10, recipient 20) has
already reached the terminal state `ended`. -/
def exEndedDB : CallsDB :=
  { calls := [{ exCall1 with status := .ended }], coins := fun _ => 9,
    verified := [10, 20], blockedPairs := [], nextCallId := 2 }

/-- A concrete coordinator state: users 1 and 2 both connected and joined to
conversation room 42, both online, 10 coins each. -/
def exSock2 : SockState :=
  { activeConnections := [(1, ⟨100, [42]⟩), (2, ⟨200, [42]⟩)],
    conversationRooms := [(42, [1, 2])], sioRooms := [(42, [1, 2])],
    presence := [1, 2], convs := [(42, [1, 2])], coins := fun _ => 10,
    messages := [], nextMsgId := 0 }

/-- An empty coordinator state. -/
def exSock0 : SockState :=
  { activeConnections := [], conversationRooms := [], sioRooms := [],
    presence := [], convs := [], coins := fun _ => 0,
    messages := [], nextMsgId := 0 }

/-! ## List and association-list lemmas -/

theorem find?_map_congr {α : Type} (f : α → α) (p : α → Bool)
    (hp : ∀ x, p (f x) = p x) :
    ∀ l : List α, (l.map f).find? p = (l.find? p).map f := by
  intro l
  induction l with
  | nil => rfl
  | cons a t ih =>
      simp only [List.map_cons, List.find?_cons, hp a]
      cases h : p a with
      | true => rfl
      | false => exact ih

theorem alookup_aset_self {α : Type} (m : List (Nat × α)) (k : Nat) (v : α) :
    alookup (aset m k v) k = some v := by
  induction m with
  | nil => simp [aset, alookup, List.find?_cons]
  | cons p t ih =>
      by_cases h : p.1 = k
      · simp [aset, alookup, List.find?_cons, h]
      · simp only [aset, alookup, List.find?_cons] at ih ⊢
        simp [h, ih]

theorem alookup_aset_ne {α : Type} (m : List (Nat × α)) (k k' : Nat) (v : α)
    (hne : k' ≠ k) :
    alookup (aset m k v) k' = alookup m k' := by
  induction m with
  | nil => simp [aset, alookup, List.find?_cons, Ne.symm hne]
  | cons p t ih =>
      by_cases hpk : p.1 = k
      · have h1 : (p.1 == k) = true := by simp [hpk]
        have h2 : (p.1 == k') = false := by simp [hpk, Ne.symm hne]
        have h3 : (k == k') = false := by simp [Ne.symm hne]
        simp [aset, alookup, List.find?_cons, h1, h2, h3]
      · have h1 : (p.1 == k) = false := by simp [hpk]
        by_cases hpk' : p.1 = k'
        · have h2 : (p.1 == k') = true := by simp [hpk']
          simp [aset, alookup, List.find?_cons, h1, h2]
        · have h2 : (p.1 == k') = false := by simp [hpk']
          simp only [aset, alookup, List.find?_cons, h1, h2] at ih ⊢
          simp only [if_false, List.find?_cons, h2, Bool.false_eq_true]
          exact ih

theorem alookup_adel_self {α : Type} (m : List (Nat × α)) (k : Nat) :
    alookup (adel m k) k = none := by
  have hfind : List.find? (fun p => p.1 == k) (adel m k) = none := by
    rw [List.find?_eq_none]
    intro x hx
    have := (List.mem_filter.mp hx).2
    simp only [bne_iff_ne, ne_eq] at this
    simp [this]
  simp [alookup, hfind]

theorem alookup_adel_ne {α : Type} (m : List (Nat × α)) (k k' : Nat)
    (hne : k' ≠ k) :
    alookup (adel m k) k' = alookup m k' := by
  unfold alookup adel
  congr 1
  induction m with
  | nil => rfl
  | cons a t ih =>
      by_cases ha : a.1 = k
      · have h1 : (a.1 != k) = false := by simp [ha]
        have h2 : (a.1 == k') = false := by
          subst ha
          simp [Ne.symm hne]
        simp only [List.filter_cons, h1, if_false, List.find?_cons, h2]
        exact ih
      · have h1 : (a.1 != k) = true := by simp [ha]
        simp only [List.filter_cons, h1, if_true, List.find?_cons]
        cases h : (a.1 == k') with
        | true => rfl
        | false => exact ih

/-! ## Room-set lemmas -/

theorem mem_members_addMem_self (m : List (Nat × List Nat)) (rid uid : Nat) :
    uid ∈ members (addMem m rid uid) rid := by
  unfold addMem
  cases h : alookup m rid with
  | none => simp [members, alookup_aset_self]
  | some ms =>
      by_cases hmem : uid ∈ ms
      · simp [members, h, hmem]
      · simp [members, hmem, alookup_aset_self]

theorem addMem_of_mem (m : List (Nat × List Nat)) (rid uid : Nat)
    (h : uid ∈ members m rid) :
    addMem m rid uid = m := by
  unfold addMem
  cases hl : alookup m rid with
  | none => simp [members, hl] at h
  | some ms =>
      simp only [members, hl, Option.getD_some] at h
      simp [h]

theorem not_mem_members_delMem_self (m : List (Nat × List Nat)) (rid uid : Nat) :
    uid ∉ members (delMem m rid uid) rid := by
  unfold delMem
  cases h : alookup m rid with
  | none => simp [members, h]
  | some ms =>
      by_cases he : (ms.filter (fun x => x != uid)).isEmpty
      · simp [members, he, alookup_adel_self]
      · simp only [he, if_false, Bool.false_eq_true]
        simp [members, alookup_aset_self, List.mem_filter]

theorem members_addMem_ne (m : List (Nat × List Nat)) (rid uid r : Nat)
    (h : r ≠ rid) :
    members (addMem m rid uid) r = members m r := by
  unfold addMem
  cases hl : alookup m rid with
  | none => simp [members, alookup_aset_ne _ _ _ _ h]
  | some ms =>
      by_cases hmem : uid ∈ ms
      · simp [hmem]
      · simp [members, hmem, alookup_aset_ne _ _ _ _ h]

theorem members_delMem_ne (m : List (Nat × List Nat)) (rid uid r : Nat)
    (h : r ≠ rid) :
    members (delMem m rid uid) r = members m r := by
  unfold delMem
  cases hl : alookup m rid with
  | none => rfl
  | some ms =>
      by_cases he : (ms.filter (fun x => x != uid)).isEmpty
      · simp [members, he, alookup_adel_ne _ _ _ h]
      · simp only [he, if_false, Bool.false_eq_true]
        simp [members, alookup_aset_ne _ _ _ _ h]

theorem mem_members_delMem_other (m : List (Nat × List Nat)) (rid uid r v : Nat)
    (hv : v ≠ uid) :
    v ∈ members (delMem m rid uid) r ↔ v ∈ members m r := by
  by_cases hr : r = rid
  · subst hr
    unfold delMem
    cases hl : alookup m r with
    | none => simp
    | some ms =>
        by_cases he : (ms.filter (fun x => x != uid)).isEmpty
        · have hall : ∀ x ∈ ms, x = uid := by
            intro x hx
            by_contra hne
            have : x ∈ ms.filter (fun y => y != uid) := by
              simp [List.mem_filter, hx, hne]
            rw [List.isEmpty_iff] at he
            simp [he] at this
          simp only [members, he, if_true, alookup_adel_self, hl, Option.getD_some,
            Option.getD_none]
          constructor
          · intro hf
            simp at hf
          · intro hf
            exact absurd (hall v hf) hv
        · simp only [members, he, if_false, Bool.false_eq_true, alookup_aset_self, hl,
            Option.getD_some]
          simp [List.mem_filter, hv]
  · rw [members_delMem_ne _ _ _ _ hr]

theorem alookup_delMem_last (m : List (Nat × List Nat)) (rid uid : Nat)
    (h : ∀ x ∈ members m rid, x = uid) (hex : alookup m rid ≠ none) :
    alookup (delMem m rid uid) rid = none := by
  unfold delMem
  cases hl : alookup m rid with
  | none => exact absurd hl hex
  | some ms =>
      have he : (ms.filter (fun x => x != uid)).isEmpty = true := by
        rw [List.isEmpty_iff, List.eq_nil_iff_forall_not_mem]
        intro x hx
        rcases List.mem_filter.mp hx with ⟨hx1, hx2⟩
        have : x = uid := h x (by simp [members, hl, hx1])
        simp [this] at hx2
      simp [he, alookup_adel_self]

/-! ## Call-table lemmas -/

theorem find?_strengthen {α : Type} (p q : α → Bool)
    (hpq : ∀ x, q x = true → p x = true) :
    ∀ (l : List α) (a : α), l.find? p = some a → q a = true → l.find? q = some a := by
  intro l
  induction l with
  | nil =>
      intro a h
      simp [List.find?] at h
  | cons b t ih =>
      intro a h ha
      rw [List.find?_cons] at h ⊢
      cases hpb : p b with
      | true =>
          rw [hpb] at h
          simp only at h
          cases h
          simp [ha]
      | false =>
          have hqb : q b = false := by
            cases hq : q b with
            | true => exact absurd (hpq b hq) (by simp [hpb])
            | false => rfl
          rw [hpb] at h
          simp only at h
          rw [hqb]
          simp only
          exact ih a h ha

/-- A row transform that never changes `callId` commutes with
select-first-by-id. -/
theorem find?_map_callId (l : List Call) (f : Call → Call) (cid : Nat)
    (hf : ∀ c, (f c).callId = c.callId) :
    (l.map f).find? (fun c => c.callId == cid) =
      (l.find? (fun c => c.callId == cid)).map f :=
  find?_map_congr f (fun c => c.callId == cid)
    (fun x => by
      show ((f x).callId == cid) = (x.callId == cid)
      rw [hf x]) l

/-- The `answer` guard row: when the first row with the call's id is `ringing`
and names `uid` as recipient, it is also the first row matching the full
`WHERE` clause of the answer query. -/
theorem answer_select (db : CallsDB) (cid uid : Nat) (c : Call)
    (hfind : findCall db cid = some c) (hring : c.status = .ringing)
    (hrec : c.recipientId = uid) :
    db.calls.find?
      (fun k => k.callId == cid && k.recipientId == uid && k.status == .ringing) =
      some c := by
  unfold findCall at hfind
  have hq : (c.callId == cid && c.recipientId == uid && c.status == .ringing) = true := by
    have := List.find?_some hfind
    simp only at this
    simp [this, hring, hrec]
  exact find?_strengthen (fun k => k.callId == cid)
    (fun k => k.callId == cid && k.recipientId == uid && k.status == .ringing)
    (fun x hx => by
      rw [Bool.and_eq_true, Bool.and_eq_true] at hx
      exact hx.1.1)
    db.calls c hfind hq

/-- After a successful `answer`, no row with this id is still `ringing`: the
timer body's guarded UPDATE matches nothing. -/
theorem no_ringing_after_answer (db : CallsDB) (cid uid now : Nat) (c : Call)
    (hsel : db.calls.find?
      (fun k => k.callId == cid && k.recipientId == uid && k.status == .ringing) =
      some c) :
    ((answerCall db cid uid now).2).calls.any
      (fun k => k.callId == cid && k.status == .ringing) = false := by
  unfold answerCall
  rw [hsel]
  simp only
  rw [Bool.eq_false_iff]
  intro hany
  rcases List.any_eq_true.mp hany with ⟨x, hx, hpx⟩
  rcases List.mem_map.mp hx with ⟨y, _, rfl⟩
  by_cases hy : (y.callId == cid) = true
  · simp [hy] at hpx
  · simp [hy] at hpx

/-- After the timer fires, no row with this id is still `ringing`: the
`answer` SELECT matches nothing. -/
theorem no_ringing_after_timeout (db : CallsDB) (cid a b now uid : Nat) :
    ((fireTimeout db cid a b now).2).calls.find?
      (fun k => k.callId == cid && k.recipientId == uid && k.status == .ringing) =
      none := by
  unfold fireTimeout
  simp only
  rw [List.find?_eq_none]
  intro x hx
  rcases List.mem_map.mp hx with ⟨y, _, rfl⟩
  by_cases hy : (y.callId == cid && y.status == CallStatus.ringing) = true
  · simp [hy]
  · simp only [hy, if_false, Bool.false_eq_true]
    intro hcontra
    rw [Bool.and_eq_true, Bool.and_eq_true] at hcontra
    exact hy (by
      rw [Bool.and_eq_true]
      exact ⟨hcontra.1.1, hcontra.2⟩)

/-- Status of the call after a successful `answer`: `connected`. -/
theorem statusOf_after_answer (db : CallsDB) (cid uid now : Nat) (c : Call)
    (hfind : findCall db cid = some c)
    (hsel : db.calls.find?
      (fun k => k.callId == cid && k.recipientId == uid && k.status == .ringing) =
      some c) :
    statusOf (answerCall db cid uid now).2 cid = some .connected := by
  unfold answerCall
  rw [hsel]
  simp only [statusOf, findCall]
  rw [find?_map_callId]
  · unfold findCall at hfind
    rw [hfind]
    have hceq : c.callId = cid := by
      have := List.find?_some hfind
      simpa using this
    simp [hceq]
  · intro k
    by_cases hk : (k.callId == cid) = true
    · simp [hk]
    · simp [hk]

/-- Status of the call after the timer fires on a `ringing` call: `missed`. -/
theorem statusOf_after_timeout (db : CallsDB) (cid a b now : Nat) (c : Call)
    (hfind : findCall db cid = some c) (hring : c.status = .ringing) :
    statusOf (fireTimeout db cid a b now).2 cid = some .missed := by
  unfold fireTimeout
  simp only [statusOf, findCall]
  rw [find?_map_callId]
  · unfold findCall at hfind
    rw [hfind]
    have hceq : c.callId = cid := by
      have := List.find?_some hfind
      simpa using this
    simp [hceq, hring]
  · intro k
    by_cases hk : (k.callId == cid && k.status == CallStatus.ringing) = true
    · simp [hk]
    · simp [hk]

/-- The timer body emits `call_timeout` to both captured parties whenever some
row with this id is still `ringing`. -/
theorem timeout_events_of_ringing (db : CallsDB) (cid a b now : Nat) (c : Call)
    (hfind : findCall db cid = some c) (hring : c.status = .ringing) :
    (fireTimeout db cid a b now).1 = [.callTimeout a cid, .callTimeout b cid] := by
  unfold fireTimeout
  simp only
  have hmem : c ∈ db.calls := List.mem_of_find?_eq_some hfind
  have hid : (c.callId == cid) = true := by
    have := List.find?_some hfind
    simpa using this
  have hany : db.calls.any (fun k => k.callId == cid && k.status == CallStatus.ringing) = true :=
    List.any_eq_true.mpr ⟨c, hmem, by simp [hid, hring]⟩
  simp [hany]

/-- When no row with this id is `ringing`, the full `answer` SELECT finds
nothing either. -/
theorem find?_answer_none_of_no_ringing (l : List Call) (cid uid : Nat)
    (h : l.any (fun k => k.callId == cid && k.status == .ringing) = false) :
    l.find?
      (fun k => k.callId == cid && k.recipientId == uid && k.status == .ringing) =
      none := by
  rw [List.find?_eq_none]
  intro x hx hpx
  rw [Bool.and_eq_true, Bool.and_eq_true] at hpx
  have hany : l.any (fun k => k.callId == cid && k.status == .ringing) = true :=
    List.any_eq_true.mpr ⟨x, hx, by
      rw [Bool.and_eq_true]
      exact ⟨hpx.1.1, hpx.2⟩⟩
  rw [h] at hany
  exact Bool.false_ne_true hany

/-- After a successful `answer`, the armed timer fires no event. -/
theorem timeout_quiet_after_answer (db : CallsDB) (cid uid now a b now2 : Nat) (c : Call)
    (hsel : db.calls.find?
      (fun k => k.callId == cid && k.recipientId == uid && k.status == .ringing) =
      some c) :
    (fireTimeout (answerCall db cid uid now).2 cid a b now2).1 = [] := by
  unfold fireTimeout
  simp only
  rw [no_ringing_after_answer db cid uid now c hsel]
  simp

/-- A `connected` call stays `connected` through a late timer firing. -/
theorem statusOf_fireTimeout_connected (db : CallsDB) (cid a b now : Nat)
    (hst : statusOf db cid = some .connected) :
    statusOf (fireTimeout db cid a b now).2 cid = some .connected := by
  unfold fireTimeout
  simp only [statusOf, findCall] at hst ⊢
  rw [find?_map_callId]
  · cases hf : db.calls.find? (fun c => c.callId == cid) with
    | none =>
        rw [hf] at hst
        simp at hst
    | some k =>
        rw [hf] at hst
        have hk : k.status = .connected := by simpa using hst
        simp [hk]
  · intro k
    by_cases hk : (k.callId == cid && k.status == CallStatus.ringing) = true
    · simp [hk]
    · simp [hk]

/-- `answer` on a state with no ringing row of this id: 404, state unchanged. -/
theorem answer_fails_of_no_ringing (db : CallsDB) (cid uid now : Nat)
    (h : db.calls.any (fun k => k.callId == cid && k.status == .ringing) = false) :
    answerCall db cid uid now = (.notFound, db) := by
  unfold answerCall
  rw [find?_answer_none_of_no_ringing db.calls cid uid h]

/-- The timer body never touches coin balances. -/
theorem timeout_coins_frame (db : CallsDB) (cid a b now : Nat) :
    (fireTimeout db cid a b now).2.coins = db.coins := rfl

/-- `initiate` never touches coin balances (it only compares). -/
theorem initiate_coins_frame (db : CallsDB) (a b : Nat) (t : CallType) (now : Nat) :
    (initiateCall db a b t now).2.coins = db.coins := by
  unfold initiateCall
  repeat' split
  all_goals rfl

/-- `decline` never touches coin balances. -/
theorem decline_coins_frame (db : CallsDB) (cid uid now : Nat) :
    (declineCall db cid uid now).2.coins = db.coins := by
  unfold declineCall
  split
  all_goals rfl

/-- `end` never touches coin balances. -/
theorem end_coins_frame (db : CallsDB) (cid uid now : Nat) :
    (endCall db cid uid now).2.coins = db.coins := by
  unfold endCall
  split
  all_goals rfl

/-! ## Claim theorems: call-session state machine -/

/-- Claim C1: for a call in state `ringing`, the `answer` transition and the
30-second timer body race safely in either order: exactly one of
{`connected`, `missed`} results, never both, because each transition is
guarded by a check that the call is still `ringing`.  Order one: `answer`
wins (call `connected`), the late timer updates nothing and emits nothing.
Order two: the timer wins (call `missed`, both parties notified), the late
`answer` is rejected and changes nothing. -/
theorem answer_timeout_race_exclusive (db : CallsDB) (cid now now2 : Nat) (c : Call)
    (hfind : findCall db cid = some c) (hring : c.status = .ringing) :
    ((answerCall db cid c.recipientId now).1 = .ok c
      ∧ (fireTimeout (answerCall db cid c.recipientId now).2 cid
          c.callerId c.recipientId now2).1 = []
      ∧ statusOf (fireTimeout (answerCall db cid c.recipientId now).2 cid
          c.callerId c.recipientId now2).2 cid = some .connected)
    ∧ ((fireTimeout db cid c.callerId c.recipientId now).1 =
        [.callTimeout c.callerId cid, .callTimeout c.recipientId cid]
      ∧ answerCall (fireTimeout db cid c.callerId c.recipientId now).2 cid
          c.recipientId now2 =
          (.notFound, (fireTimeout db cid c.callerId c.recipientId now).2)
      ∧ statusOf (fireTimeout db cid c.callerId c.recipientId now).2 cid =
          some .missed) := by
  have hsel := answer_select db cid c.recipientId c hfind hring rfl
  refine ⟨⟨?_, ?_, ?_⟩, ?_, ?_, ?_⟩
  · unfold answerCall
    rw [hsel]
  · exact timeout_quiet_after_answer db cid c.recipientId now c.callerId c.recipientId now2 c hsel
  · exact statusOf_fireTimeout_connected _ cid c.callerId c.recipientId now2
      (statusOf_after_answer db cid c.recipientId now c hfind hsel)
  · exact timeout_events_of_ringing db cid c.callerId c.recipientId now c hfind hring
  · unfold answerCall
    rw [no_ringing_after_timeout db cid c.callerId c.recipientId now c.recipientId]
  · exact statusOf_after_timeout db cid c.callerId c.recipientId now c hfind hring

theorem answer_timeout_race_exclusive_witness :
    (findCall exCallsDB 1 = some exCall1 ∧ exCall1.status = .ringing)
    ∧ (((answerCall exCallsDB 1 exCall1.recipientId 5).1 = .ok exCall1
      ∧ (fireTimeout (answerCall exCallsDB 1 exCall1.recipientId 5).2 1
          exCall1.callerId exCall1.recipientId 30).1 = []
      ∧ statusOf (fireTimeout (answerCall exCallsDB 1 exCall1.recipientId 5).2 1
          exCall1.callerId exCall1.recipientId 30).2 1 = some .connected)
    ∧ ((fireTimeout exCallsDB 1 exCall1.callerId exCall1.recipientId 5).1 =
        [.callTimeout exCall1.callerId 1, .callTimeout exCall1.recipientId 1]
      ∧ answerCall (fireTimeout exCallsDB 1 exCall1.callerId exCall1.recipientId 5).2 1
          exCall1.recipientId 30 =
          (.notFound, (fireTimeout exCallsDB 1 exCall1.callerId exCall1.recipientId 5).2)
      ∧ statusOf (fireTimeout exCallsDB 1 exCall1.callerId exCall1.recipientId 5).2 1 =
          some .missed)) :=
  ⟨⟨by rfl, rfl⟩,
   answer_timeout_race_exclusive exCallsDB 1 5 30 exCall1 (by rfl) rfl⟩

/-- Claim C8: a `ringing` call whose 30-second timer fires moves to `missed`,
`call_timeout` is emitted to both the caller and the recipient, and any
subsequent `answer` on that callId is rejected with a not-found error and
leaves the state unchanged. -/
theorem ringing_timeout_missed (db : CallsDB) (cid now : Nat) (c : Call)
    (hfind : findCall db cid = some c) (hring : c.status = .ringing) :
    (fireTimeout db cid c.callerId c.recipientId now).1 =
      [.callTimeout c.callerId cid, .callTimeout c.recipientId cid]
    ∧ statusOf (fireTimeout db cid c.callerId c.recipientId now).2 cid = some .missed
    ∧ ∀ uid now2,
        answerCall (fireTimeout db cid c.callerId c.recipientId now).2 cid uid now2 =
          (.notFound, (fireTimeout db cid c.callerId c.recipientId now).2) := by
  refine ⟨timeout_events_of_ringing db cid _ _ now c hfind hring,
          statusOf_after_timeout db cid _ _ now c hfind hring, ?_⟩
  intro uid now2
  unfold answerCall
  rw [no_ringing_after_timeout db cid c.callerId c.recipientId now uid]

theorem ringing_timeout_missed_witness :
    (findCall exCallsDB 1 = some exCall1 ∧ exCall1.status = .ringing)
    ∧ ((fireTimeout exCallsDB 1 exCall1.callerId exCall1.recipientId 30).1 =
        [.callTimeout exCall1.callerId 1, .callTimeout exCall1.recipientId 1]
    ∧ statusOf (fireTimeout exCallsDB 1 exCall1.callerId exCall1.recipientId 30).2 1 =
        some .missed
    ∧ ∀ uid now2,
        answerCall (fireTimeout exCallsDB 1 exCall1.callerId exCall1.recipientId 30).2 1
            uid now2 =
          (.notFound, (fireTimeout exCallsDB 1 exCall1.callerId exCall1.recipientId 30).2)) :=
  ⟨⟨by rfl, rfl⟩, ringing_timeout_missed exCallsDB 1 30 exCall1 (by rfl) rfl⟩

/-- Claim C10: the caller's coin balance changes only at the
`ringing → connected` transition.  `initiate` only compares the balance with
the fixed cost (5 for video, 3 for voice) and deducts nothing; `decline`, the
timer body (`missed`) and `end` leave every balance unchanged; a successful
`answer` deducts the fixed cost from the caller and touches nobody else; a
second `answer` on the same call fails and deducts nothing again. -/
theorem coins_deducted_only_on_answer (db : CallsDB) (a b cid uid now : Nat)
    (t : CallType) (c : Call)
    (hfind : findCall db cid = some c) (hring : c.status = .ringing)
    (hrec : c.recipientId = uid) :
    requiredCoins .video = 5
    ∧ requiredCoins .voice = 3
    ∧ (a ≠ b → db.coins a < requiredCoins t →
        (initiateCall db a b t now).1 = .insufficientCoins (requiredCoins t) (db.coins a))
    ∧ (initiateCall db a b t now).2.coins = db.coins
    ∧ (declineCall db cid uid now).2.coins = db.coins
    ∧ (fireTimeout db cid a b now).2.coins = db.coins
    ∧ (endCall db cid uid now).2.coins = db.coins
    ∧ (answerCall db cid uid now).2.coins c.callerId =
        db.coins c.callerId - requiredCoins c.callType
    ∧ (∀ x, x ≠ c.callerId → (answerCall db cid uid now).2.coins x = db.coins x)
    ∧ (∀ uid2 now2,
        answerCall (answerCall db cid uid now).2 cid uid2 now2 =
          (.notFound, (answerCall db cid uid now).2)) := by
  have hsel := answer_select db cid uid c hfind hring hrec
  refine ⟨rfl, rfl, ?_, initiate_coins_frame db a b t now, decline_coins_frame db cid uid now,
          timeout_coins_frame db cid a b now, end_coins_frame db cid uid now, ?_, ?_, ?_⟩
  · intro hab hlt
    unfold initiateCall
    have h1 : (a == b) = false := by simp [hab]
    simp [h1, hlt]
  · unfold answerCall
    rw [hsel]
    simp
  · intro x hx
    unfold answerCall
    rw [hsel]
    simp [hx]
  · intro uid2 now2
    exact answer_fails_of_no_ringing _ cid uid2 now2
      (no_ringing_after_answer db cid uid now c hsel)

theorem coins_deducted_only_on_answer_witness :
    (findCall exCallsDB 1 = some exCall1 ∧ exCall1.status = .ringing
      ∧ exCall1.recipientId = 20)
    ∧ (requiredCoins .video = 5
    ∧ requiredCoins .voice = 3
    ∧ ((10 : Nat) ≠ 20 → exCallsDB.coins 10 < requiredCoins .voice →
        (initiateCall exCallsDB 10 20 .voice 5).1 =
          .insufficientCoins (requiredCoins .voice) (exCallsDB.coins 10))
    ∧ (initiateCall exCallsDB 10 20 .voice 5).2.coins = exCallsDB.coins
    ∧ (declineCall exCallsDB 1 20 5).2.coins = exCallsDB.coins
    ∧ (fireTimeout exCallsDB 1 10 20 5).2.coins = exCallsDB.coins
    ∧ (endCall exCallsDB 1 20 5).2.coins = exCallsDB.coins
    ∧ (answerCall exCallsDB 1 20 5).2.coins exCall1.callerId =
        exCallsDB.coins exCall1.callerId - requiredCoins exCall1.callType
    ∧ (∀ x, x ≠ exCall1.callerId →
        (answerCall exCallsDB 1 20 5).2.coins x = exCallsDB.coins x)
    ∧ (∀ uid2 now2,
        answerCall (answerCall exCallsDB 1 20 5).2 1 uid2 now2 =
          (.notFound, (answerCall exCallsDB 1 20 5).2))) :=
  ⟨⟨by rfl, rfl, rfl⟩,
   coins_deducted_only_on_answer exCallsDB 10 20 1 20 5 .voice exCall1 (by rfl) rfl rfl⟩

/-- Claim C3: when the caller or the recipient is already a party to a
`ringing` or `connected` call, `initiate` is rejected with the
already-in-call error and no call row is created; when every call involving
either party is terminal (and the other preconditions hold), `initiate`
succeeds and appends a fresh `ringing` call. -/
theorem initiate_already_in_call (db : CallsDB) (a b : Nat) (t : CallType) (now : Nat)
    (hab : a ≠ b)
    (hcoins : requiredCoins t ≤ db.coins a)
    (hver : b ∈ db.verified)
    (hblk : isBlockedPair db a b = false) :
    ((∃ c ∈ db.calls,
        (c.callerId = a ∨ c.recipientId = a ∨ c.callerId = b ∨ c.recipientId = b)
        ∧ (c.status = .ringing ∨ c.status = .connected)) →
      initiateCall db a b t now = (.alreadyInCall, db))
    ∧ ((∀ c ∈ db.calls,
        (c.callerId = a ∨ c.recipientId = a ∨ c.callerId = b ∨ c.recipientId = b) →
        (c.status ≠ .ringing ∧ c.status ≠ .connected)) →
      initiateCall db a b t now =
        (.ok (newCall db a b t now),
         { db with calls := db.calls ++ [newCall db a b t now],
                   nextCallId := db.nextCallId + 1 })) := by
  have h1 : (a == b) = false := by simp [hab]
  have h2 : ¬ db.coins a < requiredCoins t := not_lt.mpr hcoins
  have h3 : db.verified.any (fun u => u == b) = true :=
    List.any_eq_true.mpr ⟨b, hver, by simp⟩
  constructor
  · rintro ⟨c, hc, hinv, hact⟩
    have h4 : db.calls.any (fun k => involvesEither k a b && isActive k.status) = true := by
      refine List.any_eq_true.mpr ⟨c, hc, ?_⟩
      rw [Bool.and_eq_true]
      constructor
      · unfold involvesEither
        rcases hinv with h | h | h | h <;> simp [h]
      · unfold isActive
        rcases hact with h | h <;> simp [h]
    unfold initiateCall
    simp [h1, h2, h3, hblk, h4]
  · intro hterm
    have h4 : db.calls.any (fun k => involvesEither k a b && isActive k.status) = false := by
      rw [Bool.eq_false_iff]
      intro hany
      rcases List.any_eq_true.mp hany with ⟨k, hk, hpk⟩
      rw [Bool.and_eq_true] at hpk
      have hinv : k.callerId = a ∨ k.recipientId = a ∨ k.callerId = b ∨ k.recipientId = b := by
        have := hpk.1
        unfold involvesEither at this
        rw [Bool.or_eq_true, Bool.or_eq_true, Bool.or_eq_true] at this
        rcases this with ((h | h) | h) | h
        · exact Or.inl (by simpa using h)
        · exact Or.inr (Or.inl (by simpa using h))
        · exact Or.inr (Or.inr (Or.inl (by simpa using h)))
        · exact Or.inr (Or.inr (Or.inr (by simpa using h)))
      rcases hterm k hk hinv with ⟨hr, hcn⟩
      have hact := hpk.2
      unfold isActive at hact
      rw [Bool.or_eq_true] at hact
      rcases hact with h | h
      · exact hr (by simpa using h)
      · exact hcn (by simpa using h)
    unfold initiateCall
    simp [h1, h2, h3, hblk, h4]

theorem initiate_already_in_call_witness :
    ((10 : Nat) ≠ 20 ∧ requiredCoins .voice ≤ exCallsDB.coins 10
      ∧ (20 : Nat) ∈ exCallsDB.verified
      ∧ isBlockedPair exCallsDB 10 20 = false)
    ∧ (((∃ c ∈ exCallsDB.calls,
        (c.callerId = 10 ∨ c.recipientId = 10 ∨ c.callerId = 20 ∨ c.recipientId = 20)
        ∧ (c.status = .ringing ∨ c.status = .connected)) →
      initiateCall exCallsDB 10 20 .voice 7 = (.alreadyInCall, exCallsDB))
    ∧ ((∀ c ∈ exCallsDB.calls,
        (c.callerId = 10 ∨ c.recipientId = 10 ∨ c.callerId = 20 ∨ c.recipientId = 20) →
        (c.status ≠ .ringing ∧ c.status ≠ .connected)) →
      initiateCall exCallsDB 10 20 .voice 7 =
        (.ok (newCall exCallsDB 10 20 .voice 7),
         { exCallsDB with calls := exCallsDB.calls ++ [newCall exCallsDB 10 20 .voice 7],
                          nextCallId := exCallsDB.nextCallId + 1 }))) := by
  refine ⟨⟨by decide, by decide, by decide, by rfl⟩, ?_⟩
  exact initiate_already_in_call exCallsDB 10 20 .voice 7 (by decide) (by decide)
    (by decide) (by rfl)

/-- Claim C5 counterexample: `end` on a call that is already in the terminal
state `ended`, invoked by its caller, returns the not-found error (the route
answers 404 "Call not found or already ended"), so the caller does receive an
error result — the operation is not the claimed error-free no-op.  (The state
is indeed left unchanged; it is the "not an error" half that fails.) -/
theorem end_terminal_call_errors_cex :
    (endCall exEndedDB 1 10 99).1 = .notFound
    ∧ (endCall exEndedDB 1 10 99).2 = exEndedDB := by
  exact ⟨rfl, rfl⟩

/-- Claim C5 (amended): `end` on a call whose rows are all terminal leaves the
state completely unchanged but is rejected with a not-found error (HTTP 404
"Call not found or already ended") rather than reported as an idempotent
success. -/
theorem end_terminal_call_rejected (db : CallsDB) (cid uid now : Nat)
    (hterm : ∀ c ∈ db.calls, c.callId = cid →
      c.status ≠ .ringing ∧ c.status ≠ .connected) :
    endCall db cid uid now = (.notFound, db) := by
  unfold endCall
  have hnone : db.calls.find? (fun c => endGuard c cid uid) = none := by
    rw [List.find?_eq_none]
    intro x hx hguard
    unfold endGuard at hguard
    rw [Bool.and_eq_true, Bool.and_eq_true] at hguard
    have hid : x.callId = cid := by simpa using hguard.1.1
    rcases hterm x hx hid with ⟨hr, hc⟩
    have hact := hguard.2
    unfold isActive at hact
    rw [Bool.or_eq_true] at hact
    rcases hact with h | h
    · exact hr (by simpa using h)
    · exact hc (by simpa using h)
  rw [hnone]

theorem end_terminal_call_rejected_witness :
    (∀ c ∈ exEndedDB.calls, c.callId = 1 →
      c.status ≠ .ringing ∧ c.status ≠ .connected)
    ∧ endCall exEndedDB 1 10 99 = (.notFound, exEndedDB) :=
  ⟨by decide, end_terminal_call_rejected exEndedDB 1 10 99 (by decide)⟩

/-! ## Coordinator lemmas -/

/-- The disconnect handler's room cleanup is always a no-op: it iterates the
`rooms` set of the registry entry it has just deleted, which is gone, so the
fallback empty list is traversed and `conversationRooms` is untouched. -/
theorem disconnect_conversationRooms (s : SockState) (uid : Nat) :
    (disconnect s uid).conversationRooms = s.conversationRooms := by
  unfold disconnect
  simp [alookup_adel_self]

/-- Disconnect removes the user's presence record. -/
theorem disconnect_presence_absent (s : SockState) (uid : Nat) :
    uid ∉ (disconnect s uid).presence := by
  unfold disconnect
  simp [List.mem_filter]

theorem aset_aset {α : Type} (m : List (Nat × α)) (k : Nat) (v1 v2 : α) :
    aset (aset m k v1) k v2 = aset m k v2 := by
  induction m with
  | nil => simp [aset]
  | cons p t ih =>
      by_cases h : p.1 = k
      · simp [aset, h]
      · have h1 : (p.1 == k) = false := by simp [h]
        simp [aset, h1, ih]

/-- Case summary of `sendMessage`: either it fails — empty fan-out, state
unchanged, result not a success — or the store was up and it succeeds, with
the new message appended to the store and the whole socket.io room as the
fan-out. -/
theorem sendMessage_shape (s : SockState) (uid cid : Nat) (content : String)
    (now : Nat) (storeUp : Bool) :
    ((sendMessage s uid cid content now storeUp).2.1 = []
      ∧ (sendMessage s uid cid content now storeUp).2.2 = s
      ∧ ∀ m, (sendMessage s uid cid content now storeUp).1 ≠ .ok m)
    ∨ (storeUp = true
      ∧ ∃ m, (sendMessage s uid cid content now storeUp).1 = .ok m
        ∧ (sendMessage s uid cid content now storeUp).2.1 = members s.sioRooms cid
        ∧ (sendMessage s uid cid content now storeUp).2.2.messages =
            s.messages ++ [m]) := by
  unfold sendMessage
  by_cases hv : content.length < 1 ∨ content.length > 1000
  · left
    rw [if_pos hv]
    simp
  · rw [if_neg hv]
    cases hcv : alookup s.convs cid with
    | none => left; simp
    | some ps =>
        by_cases hm : uid ∈ ps
        · by_cases hco : s.coins uid < 1
          · left; simp [hm, hco]
          · cases storeUp with
            | false => left; simp [hm, hco]
            | true =>
                right
                refine ⟨rfl, ⟨s.nextMsgId, cid, uid, content, now⟩, ?_⟩
                simp [hm, hco]
        · left; simp [hm]

/-! ## Claim theorems: registry, disconnect, messaging -/

/-- Claim C2 (code bug): user 1's only session disconnects while they belong
to room 42.  The handler runs `activeConnections.delete(userId)` first and
only then iterates `activeConnections.get(userId)?.rooms || []`, which is now
the empty fallback, so the user is never removed from any `conversationRooms`
set: room 42 still lists user 1 afterwards.  The presence record, by
contrast, is correctly deleted. -/
theorem disconnect_leaves_room_membership :
    (disconnect exSock2 1).conversationRooms = [(42, [1, 2])]
    ∧ (1 : Nat) ∈ members (disconnect exSock2 1).conversationRooms 42
    ∧ (1 : Nat) ∉ (disconnect exSock2 1).presence := by
  refine ⟨disconnect_conversationRooms exSock2 1, ?_,
          disconnect_presence_absent exSock2 1⟩
  rw [disconnect_conversationRooms]
  decide

/-- Claim C9 counterexample: user 1 opens two simultaneous connections
(sockets 100 and 200).  The registry, keyed by user id, then holds exactly
one entry — socket 200; the Session of socket 100 is overwritten, not kept.
Disconnecting one of the connections removes the user's registry entry
outright, so no other session stays registered. -/
theorem registry_single_session_cex :
    (registerConnection (registerConnection exSock0 1 100) 1 200).activeConnections =
      [(1, ⟨200, []⟩)]
    ∧ alookup (disconnect
        (registerConnection (registerConnection exSock0 1 100) 1 200)
        1).activeConnections 1 = none :=
  ⟨rfl, rfl⟩

/-- Claim C9 (amended): the Connection Registry keys sessions by user
identity, not by connection handle: it holds exactly one entry for a user
after a registration, a second concurrent connection overwrites the first
entry, and a disconnect of any of the user's connections deletes the user's
entry entirely (no other session remains registered). -/
theorem registry_overwrites_per_user (s : SockState) (uid sid1 sid2 : Nat) :
    alookup (registerConnection s uid sid1).activeConnections uid =
      some ⟨sid1, []⟩
    ∧ registerConnection (registerConnection s uid sid1) uid sid2 =
        registerConnection s uid sid2
    ∧ alookup (disconnect (registerConnection s uid sid1) uid).activeConnections
        uid = none := by
  refine ⟨?_, ?_, ?_⟩
  · unfold registerConnection
    exact alookup_aset_self s.activeConnections uid ⟨sid1, []⟩
  · have hp : uid ∈ (if uid ∈ s.presence then s.presence else s.presence ++ [uid]) := by
      by_cases h : uid ∈ s.presence <;> simp [h]
    unfold registerConnection
    simp [aset_aset, hp]
  · unfold disconnect
    simp [alookup_adel_self]

/-- Claim C4 counterexample: users 1 and 2 are both connected and joined to
room 42; user 1 sends "hi".  The fan-out (`io.to(conversationId)` /
`io.to('conversation_…')`) targets every socket in the room, including the
sender's own, so the delivery list is [1, 2] and the sender receives its own
message echoed back — contradicting "the sender does not receive its own
message echoed back". -/
theorem send_message_echoes_sender_cex :
    (sendMessage exSock2 1 42 "hi" 5 true).2.1 = [1, 2]
    ∧ (1 : Nat) ∈ (sendMessage exSock2 1 42 "hi" 5 true).2.1 := by
  exact ⟨rfl, by decide⟩

/-- Claim C4 (amended): a successful `send_message` in room R is delivered to
exactly the users whose connected socket is currently in the socket.io room R
— including the sender when joined, since the fan-out uses `io.to`, which
does not exclude the sender's socket: every currently-joined connected member
receives it, zero non-members receive it, and the sender does receive its own
message echoed back. -/
theorem send_message_fanout_whole_room (s : SockState) (uid cid : Nat)
    (content : String) (now : Nat) (ps : List Nat)
    (hconv : alookup s.convs cid = some ps) (hmem : uid ∈ ps)
    (hlen : 1 ≤ content.length ∧ content.length ≤ 1000)
    (hcoins : 1 ≤ s.coins uid) :
    (sendMessage s uid cid content now true).2.1 = members s.sioRooms cid
    ∧ (∀ v, v ∈ (sendMessage s uid cid content now true).2.1 ↔
        v ∈ members s.sioRooms cid)
    ∧ (uid ∈ members s.sioRooms cid →
        uid ∈ (sendMessage s uid cid content now true).2.1) := by
  have hv : ¬ (content.length < 1 ∨ content.length > 1000) := by omega
  have hcoins2 : ¬ s.coins uid < 1 := not_lt.mpr hcoins
  have hfan : (sendMessage s uid cid content now true).2.1 = members s.sioRooms cid := by
    unfold sendMessage
    rw [if_neg hv, hconv]
    simp [hmem, hcoins2]
  refine ⟨hfan, fun v => by rw [hfan], fun h => by rw [hfan]; exact h⟩

theorem send_message_fanout_whole_room_witness :
    (alookup exSock2.convs 42 = some [1, 2] ∧ (1 : Nat) ∈ [1, 2]
      ∧ (1 ≤ ("hi" : String).length ∧ ("hi" : String).length ≤ 1000)
      ∧ 1 ≤ exSock2.coins 1)
    ∧ ((sendMessage exSock2 1 42 "hi" 5 true).2.1 = members exSock2.sioRooms 42
    ∧ (∀ v, v ∈ (sendMessage exSock2 1 42 "hi" 5 true).2.1 ↔
        v ∈ members exSock2.sioRooms 42)
    ∧ ((1 : Nat) ∈ members exSock2.sioRooms 42 →
        (1 : Nat) ∈ (sendMessage exSock2 1 42 "hi" 5 true).2.1)) :=
  ⟨⟨by rfl, by decide, by decide, by decide⟩,
   send_message_fanout_whole_room exSock2 1 42 "hi" 5 [1, 2] (by rfl) (by decide)
     (by decide) (by decide)⟩

/-- Claim C6: persistence happens before fan-out and gates it.  With the
message store down, `send_message` fails as a whole: the sender gets an error
(never a success result), nobody receives anything, and the state — coins,
store, counters — is fully rolled back.  Whenever any fan-out happens at all,
the operation succeeded and the exact emitted message has been appended to
the message store. -/
theorem send_message_persist_before_fanout (s : SockState) (uid cid : Nat)
    (content : String) (now : Nat) :
    (∀ m, (sendMessage s uid cid content now false).1 ≠ .ok m)
    ∧ (sendMessage s uid cid content now false).2.1 = []
    ∧ (sendMessage s uid cid content now false).2.2 = s
    ∧ (∀ storeUp, (sendMessage s uid cid content now storeUp).2.1 ≠ [] →
        ∃ m, (sendMessage s uid cid content now storeUp).1 = .ok m
          ∧ (sendMessage s uid cid content now storeUp).2.2.messages =
              s.messages ++ [m]) := by
  rcases sendMessage_shape s uid cid content now false with ⟨h1, h2, h3⟩ | ⟨hff, _⟩
  · refine ⟨h3, h1, h2, ?_⟩
    intro storeUp hne
    rcases sendMessage_shape s uid cid content now storeUp with
      ⟨h1', _, _⟩ | ⟨_, m, hok, _, hmsg⟩
    · exact absurd h1' hne
    · exact ⟨m, hok, hmsg⟩
  · exact absurd hff (by simp)

theorem send_message_persist_before_fanout_witness :
    ((sendMessage exSock2 1 42 "hi" 5 true).2.1 ≠ [])
    ∧ (∃ m, (sendMessage exSock2 1 42 "hi" 5 true).1 = .ok m
        ∧ (sendMessage exSock2 1 42 "hi" 5 true).2.2.messages =
            exSock2.messages ++ [m]) :=
  ⟨by decide,
   (send_message_persist_before_fanout exSock2 1 42 "hi" 5).2.2.2 true (by decide)⟩

/-! ## Join/leave lemmas and the net-effect property -/

/-- Shape of a successful `join_conversation` for an authorized, connected
user. -/
theorem joinConversation_eq (s : SockState) (uid cid : Nat) (ps : List Nat)
    (ci : ConnInfo)
    (hconv : alookup s.convs cid = some ps) (hmem : uid ∈ ps)
    (hconn : alookup s.activeConnections uid = some ci) :
    joinConversation s uid cid =
      (.ok, { s with
              sioRooms := addMem s.sioRooms cid uid,
              activeConnections := aset s.activeConnections uid
                ⟨ci.socketId, if cid ∈ ci.rooms then ci.rooms else ci.rooms ++ [cid]⟩,
              conversationRooms := addMem s.conversationRooms cid uid }) := by
  unfold joinConversation
  simp [hconv, hmem, hconn]

/-- Looking up the departing user's registry entry after `leave_conversation`. -/
theorem leave_ac_lookup (s : SockState) (uid cid : Nat) (ci : ConnInfo)
    (hconn : alookup s.activeConnections uid = some ci) :
    alookup (leaveConversation s uid cid).activeConnections uid =
      some ⟨ci.socketId, ci.rooms.filter (fun r => r != cid)⟩ := by
  unfold leaveConversation
  simp [hconn, alookup_aset_self]

/-- Net-effect induction: under persistent authorization and connection, the
user's final membership in the room is exactly the net effect of the
join/leave sequence. -/
theorem net_effect_aux (uid cid : Nat) (ps : List Nat) (ops : List RoomOp) :
    ∀ (s : SockState) (ci : ConnInfo),
      alookup s.convs cid = some ps → uid ∈ ps →
      alookup s.activeConnections uid = some ci →
      ((uid ∈ members (applyRoomOps s uid cid ops).conversationRooms cid)
        ↔ netMember (decide (uid ∈ members s.conversationRooms cid)) ops = true) := by
  induction ops with
  | nil =>
      intro s ci h1 h2 h3
      simp [applyRoomOps, netMember]
  | cons op rest ih =>
      intro s ci h1 h2 h3
      cases op with
      | join =>
          have hstep : applyRoomOps s uid cid (.join :: rest) =
              applyRoomOps (joinConversation s uid cid).2 uid cid rest := rfl
          rw [hstep, joinConversation_eq s uid cid ps ci h1 h2 h3]
          have hrw := ih
            { s with
              sioRooms := addMem s.sioRooms cid uid,
              activeConnections := aset s.activeConnections uid
                ⟨ci.socketId, if cid ∈ ci.rooms then ci.rooms else ci.rooms ++ [cid]⟩,
              conversationRooms := addMem s.conversationRooms cid uid }
            ⟨ci.socketId, if cid ∈ ci.rooms then ci.rooms else ci.rooms ++ [cid]⟩
            h1 h2 (alookup_aset_self s.activeConnections uid _)
          rw [hrw]
          have hdm : decide (uid ∈ members (addMem s.conversationRooms cid uid) cid) = true := by
            simp [mem_members_addMem_self]
          show netMember (decide (uid ∈ members (addMem s.conversationRooms cid uid) cid))
              rest = true ↔
            netMember (decide (uid ∈ members s.conversationRooms cid)) (.join :: rest) = true
          rw [hdm]
          exact Iff.rfl
      | leave =>
          have hstep : applyRoomOps s uid cid (.leave :: rest) =
              applyRoomOps (leaveConversation s uid cid) uid cid rest := rfl
          rw [hstep]
          have hrw := ih (leaveConversation s uid cid)
            ⟨ci.socketId, ci.rooms.filter (fun r => r != cid)⟩
            h1 h2 (leave_ac_lookup s uid cid ci h3)
          rw [hrw]
          have hdm : decide (uid ∈
              members (leaveConversation s uid cid).conversationRooms cid) = false := by
            simp only [decide_eq_false_iff_not]
            exact not_mem_members_delMem_self s.conversationRooms cid uid
          show netMember (decide (uid ∈
              members (leaveConversation s uid cid).conversationRooms cid)) rest = true ↔
            netMember (decide (uid ∈ members s.conversationRooms cid)) (.leave :: rest) = true
          rw [hdm]
          exact Iff.rfl

/-- Claim C7: for an authorized, connected user, every finite
`join_room`/`leave_room` sequence on the same room ends with membership equal
to the net effect of the sequence; joining an already-joined room changes
nothing (idempotent join); leaving a room the user is not in leaves every
membership set unchanged; a leave that empties the member set deletes the
room entry. -/
theorem room_membership_net_effect (s : SockState) (uid cid : Nat) (ps : List Nat)
    (ci : ConnInfo)
    (hconv : alookup s.convs cid = some ps) (hmem : uid ∈ ps)
    (hconn : alookup s.activeConnections uid = some ci) :
    (∀ ops : List RoomOp,
      uid ∈ members (applyRoomOps s uid cid ops).conversationRooms cid
        ↔ netMember (decide (uid ∈ members s.conversationRooms cid)) ops = true)
    ∧ (uid ∈ members s.conversationRooms cid →
        (joinConversation s uid cid).2.conversationRooms = s.conversationRooms)
    ∧ (uid ∉ members s.conversationRooms cid →
        ∀ v r, v ∈ members (leaveConversation s uid cid).conversationRooms r
          ↔ v ∈ members s.conversationRooms r)
    ∧ (members s.conversationRooms cid = [uid] →
        alookup (leaveConversation s uid cid).conversationRooms cid = none) := by
  refine ⟨fun ops => net_effect_aux uid cid ps ops s ci hconv hmem hconn, ?_, ?_, ?_⟩
  · intro hin
    rw [joinConversation_eq s uid cid ps ci hconv hmem hconn]
    exact addMem_of_mem s.conversationRooms cid uid hin
  · intro hout v r
    show v ∈ members (delMem s.conversationRooms cid uid) r ↔
      v ∈ members s.conversationRooms r
    by_cases hv : v = uid
    · subst hv
      by_cases hr : r = cid
      · subst hr
        constructor
        · intro h
          exact absurd h (not_mem_members_delMem_self s.conversationRooms r v)
        · intro h
          exact absurd h hout
      · rw [members_delMem_ne s.conversationRooms cid v r hr]
    · exact mem_members_delMem_other s.conversationRooms cid uid r v hv
  · intro hsingle
    show alookup (delMem s.conversationRooms cid uid) cid = none
    apply alookup_delMem_last
    · intro x hx
      rw [hsingle] at hx
      simpa using hx
    · intro hnone
      unfold members at hsingle
      rw [hnone] at hsingle
      simp at hsingle

theorem room_membership_net_effect_witness :
    (alookup exSock2.convs 42 = some [1, 2] ∧ (1 : Nat) ∈ [1, 2]
      ∧ alookup exSock2.activeConnections 1 = some ⟨100, [42]⟩)
    ∧ ((∀ ops : List RoomOp,
      (1 : Nat) ∈ members (applyRoomOps exSock2 1 42 ops).conversationRooms 42
        ↔ netMember (decide ((1 : Nat) ∈ members exSock2.conversationRooms 42)) ops = true)
    ∧ ((1 : Nat) ∈ members exSock2.conversationRooms 42 →
        (joinConversation exSock2 1 42).2.conversationRooms = exSock2.conversationRooms)
    ∧ ((1 : Nat) ∉ members exSock2.conversationRooms 42 →
        ∀ v r, v ∈ members (leaveConversation exSock2 1 42).conversationRooms r
          ↔ v ∈ members exSock2.conversationRooms r)
    ∧ (members exSock2.conversationRooms 42 = [1] →
        alookup (leaveConversation exSock2 1 42).conversationRooms 42 = none)) :=
  ⟨⟨by rfl, by decide, by rfl⟩,
   room_membership_net_effect exSock2 1 42 [1, 2] ⟨100, [42]⟩ (by rfl) (by decide) (by rfl)⟩

end ChatzModel
